import Mathlib

/-!
Verification of the tracing core of a JavaScript SDK: the transaction
lifecycle (`Transaction.finish`), the tracestate base64 codec, envelope
serialization (`eventToSentryRequest` / `transactionToSentryRequest`), and
the sampling decision engine.  JavaScript strings are embedded as
`List Char` (UTF-16 code units appear as `List Nat` inside the codec),
JavaScript numbers as `ℚ`, and fallible operations as `Except`/`Option`.
-/

namespace Sentry

/-- Shorthand for string literals as character lists. -/
def lit (s : String) : List Char := s.toList

/-- JavaScript truthiness of an optional number (`undefined`, `0` falsy). -/
def qTruthy (v : Option ℚ) : Bool :=
  match v with
  | none => false
  | some q => q ≠ 0

/-- JavaScript truthiness of an optional boolean (`x && _` guard). -/
def obTruthy (v : Option Bool) : Bool := v = some true

/-- JavaScript `a || b` on an optional string (`undefined` and the empty
string are falsy). -/
def jsOrStr (a : Option (List Char)) (b : List Char) : List Char :=
  match a with
  | none => b
  | some s => if s = [] then b else s

/-- A span held by the span recorder.  Modelled from the spec: the `Span`
base class is not part of the analysed sources; per the spec a span is a
timed unit with an `endTimestamp` that is absent until finished, and the
recorder holds the owning transaction itself as its first entry
(`isTransaction` models the `s !== this` identity test). -/
structure RSpan where
  isTransaction : Bool
  endTimestamp : Option ℚ
  deriving DecidableEq

/-- The trace context assembled by `getTraceContext`.  Modelled from the
spec: the `Span` base class is not part of the analysed sources; the spec
lists traceId, spanId, parentSpanId, operation, description, status. -/
structure TraceContext where
  trace_id : List Char
  span_id : List Char
  parent_span_id : Option (List Char)
  op : Option (List Char)
  description : Option (List Char)
  status : Option (List Char)
  deriving DecidableEq

/-- The mutable state of a `Transaction` (a `Span` specialization). -/
structure TxState where
  name : List Char
  startTimestamp : ℚ
  endTimestamp : Option ℚ
  sampled : Option Bool
  tags : List (List Char × List Char)
  spanRecorder : Option (List RSpan)
  trimEnd : Option Bool
  measurements : List (List Char × ℚ)
  tracestate : List Char
  traceContext : TraceContext
  deriving DecidableEq

/-- An event, carrying exactly the fields `Transaction.finish` assembles
plus the `event_id` used by the envelope serializer; `none` models a field
that is `undefined` (dropped by `JSON.stringify`). -/
structure Event where
  event_id : Option (List Char)
  contexts : Option TraceContext
  spans : Option (List RSpan)
  start_timestamp : Option ℚ
  tags : Option (List (List Char × List Char))
  timestamp : Option ℚ
  tracestate : Option (List Char)
  transaction : Option (List Char)
  type : Option (List Char)
  measurements : Option (List (List Char × ℚ))
  deriving DecidableEq

/-- The empty event (all fields `undefined`). -/
def Event.empty : Event :=
  ⟨none, none, none, none, none, none, none, none, none, none⟩

/-- Result of `Transaction.finish`: the updated transaction state, the
event handed to `hub.captureEvent` (`none` when no dispatch happened), and
the returned identifier. -/
structure FinishOut where
  tx : TxState
  dispatched : Option Event
  ret : Option (List Char)
  deriving DecidableEq

/-- The spans collected by `finish`: recorder entries other than the
transaction itself whose `endTimestamp` is truthy. -/
def finishedChildren (tx : TxState) : List RSpan :=
  match tx.spanRecorder with
  | none => []
  | some spans => spans.filter fun s => !s.isTransaction && qTruthy s.endTimestamp

/-- The `reduce` callback of `Transaction.finish`: keep whichever of the
two spans has the later (truthy) end timestamp. -/
def laterSpan (prev current : RSpan) : RSpan :=
  if qTruthy prev.endTimestamp && qTruthy current.endTimestamp then
    if prev.endTimestamp.getD 0 > current.endTimestamp.getD 0 then prev else current
  else prev

/-- The `Array.prototype.reduce` call without an initial value, as used
on the non-empty `finishedSpans` list. -/
def reduceSpans (hd : RSpan) (tl : List RSpan) : RSpan :=
  tl.foldl laterSpan hd

/-- The event assembled by `Transaction.finish` from the (post-trim)
transaction state and the finished children. -/
def assembleEvent (tx : TxState) (finishedSpans : List RSpan) : Event :=
  let e : Event :=
    { event_id := none
      contexts := some tx.traceContext
      spans := some finishedSpans
      start_timestamp := some tx.startTimestamp
      tags := some tx.tags
      timestamp := tx.endTimestamp
      tracestate := some tx.tracestate
      transaction := some tx.name
      type := some (lit "transaction")
      measurements := none }
  if tx.measurements.length > 0 then { e with measurements := some tx.measurements } else e

/-- The `Transaction.finish` method.  Here `now` models the current clock
reading used when no explicit timestamp is supplied (`super.finish` "just
sets the end timestamp"), and `hubCaptureRet` the identifier
`hub.captureEvent` yields when invoked. -/
def Transaction.finish (tx : TxState) (endTimestamp : Option ℚ) (now : ℚ)
    (hubCaptureRet : Option (List Char)) : FinishOut :=
  if tx.endTimestamp.isSome then
    ⟨tx, none, none⟩
  else
    let tx1 := if tx.name = [] then { tx with name := lit "<unlabeled transaction>" } else tx
    let tx2 := { tx1 with endTimestamp := some (endTimestamp.getD now) }
    if tx2.sampled ≠ some true then
      ⟨tx2, none, none⟩
    else
      let finishedSpans := finishedChildren tx2
      let tx3 :=
        match finishedSpans, obTruthy tx2.trimEnd with
        | hd :: tl, true => { tx2 with endTimestamp := (reduceSpans hd tl).endTimestamp }
        | _, _ => tx2
      ⟨tx3, some (assembleEvent tx3 finishedSpans), hubCaptureRet⟩

/-- The maximum end timestamp among a non-empty list of finished spans
(the value described by the trim rule of the spec). -/
def maxEndVal (l : List RSpan) : ℚ :=
  match l with
  | [] => 0
  | hd :: tl => tl.foldl (fun acc s => max acc (s.endTimestamp.getD 0)) (hd.endTimestamp.getD 0)

/-- A sample trace context used by concrete instantiations. -/
def tcW : TraceContext :=
  ⟨lit "0af7651916cd43dd8448eb211c80319c", lit "b7ad6b7169203331", none, none, none, none⟩

/-- A sample open, sampled transaction used by concrete instantiations. -/
def txW : TxState :=
  { name := lit "dogpark"
    startTimestamp := 1
    endTimestamp := none
    sampled := some true
    tags := []
    spanRecorder := some [⟨true, none⟩, ⟨false, some 20⟩, ⟨false, some 7⟩, ⟨false, none⟩]
    trimEnd := some true
    measurements := []
    tracestate := lit "ts"
    traceContext := tcW }

/-- The UTF-16 code units of one character (astral characters become a
surrogate pair, as in a JavaScript string). -/
def charUtf16 (c : Char) : List Nat :=
  let n := c.toNat
  if n < 65536 then [n]
  else [55296 + (n - 65536) / 1024, 56320 + (n - 65536) % 1024]

/-- The UTF-16 code units of a string. -/
def strUtf16 (s : List Char) : List Nat := (s.map charUtf16).flatten

/-- The `unicodeToBinary` conversion: view the UTF-16 code-unit buffer as
bytes, two per unit, little-endian, as the `Uint16Array`/`Uint8Array`
buffer aliasing does. -/
def utf16leBytes : List Nat → List Nat
  | [] => []
  | u :: rest => u % 65536 % 256 :: u % 65536 / 256 :: utf16leBytes rest

/-- The `binaryToUnicode` conversion: reassemble bytes into UTF-16 code
units; on a buffer of odd byte length the `Uint16Array` construction
throws (`none`). -/
def bytesToUnits : List Nat → Option (List Nat)
  | [] => some []
  | [_] => none
  | lo :: hi :: rest => (bytesToUnits rest).map fun us => (lo % 256 + 256 * (hi % 256)) :: us

/-- The lenient `utf16le` buffer reading of Node: a trailing odd byte is
dropped rather than raising. -/
def bytesToUnitsLenient : List Nat → List Nat
  | [] => []
  | [_] => []
  | lo :: hi :: rest => (lo % 256 + 256 * (hi % 256)) :: bytesToUnitsLenient rest

/-- The base64 alphabet of RFC 4648. -/
def b64Alphabet : List Char :=
  lit "ABCDEFGHIJKLMNOPQRSTUVWXYZabcdefghijklmnopqrstuvwxyz0123456789+/"

/-- The base64 digit for a 6-bit value. -/
def b64Char (n : Nat) : Char := b64Alphabet.getD n 'A'

/-- Membership in the base64 alphabet (one `[a-zA-Z0-9+/]` atom of
`BASE64_REGEX`). -/
def isB64Char (c : Char) : Bool := decide (c ∈ b64Alphabet)

/-- The index of a character in the base64 alphabet (`none` for `=` and
any other non-alphabet character). -/
def b64Index (c : Char) : Option Nat := b64Alphabet.indexOf? c

/-- Base64 encoding of a byte sequence, with `=` padding, as `btoa` or
`Buffer.toString` produce it. -/
def b64encode : List Nat → List Char
  | [] => []
  | [b1] =>
    let x := b1 % 256
    [b64Char (x / 4), b64Char (x % 4 * 16), '=', '=']
  | [b1, b2] =>
    let x := b1 % 256
    let y := b2 % 256
    [b64Char (x / 4), b64Char (x % 4 * 16 + y / 16), b64Char (y % 16 * 4), '=']
  | b1 :: b2 :: b3 :: rest =>
    let x := b1 % 256
    let y := b2 % 256
    let z := b3 % 256
    b64Char (x / 4) :: b64Char (x % 4 * 16 + y / 16) :: b64Char (y % 16 * 4 + z / 64) ::
      b64Char (z % 64) :: b64encode rest

/-- The `BASE64_REGEX` test: any number of four-character alphabet groups
followed by an empty tail or one of the three padded tails. -/
def validB64 : List Char → Bool
  | [] => true
  | [c1, '=', '=', '='] => isB64Char c1
  | [c1, c2, '=', '='] => isB64Char c1 && isB64Char c2
  | [c1, c2, c3, '='] => isB64Char c1 && isB64Char c2 && isB64Char c3
  | c1 :: c2 :: c3 :: c4 :: rest =>
    isB64Char c1 && isB64Char c2 && isB64Char c3 && isB64Char c4 && validB64 rest
  | _ => false

/-- The `atob` primitive: decode base64 four characters at a time; any
`=` outside the final padding positions, any non-alphabet character, and
any length not a multiple of four make it throw (`none`). -/
def b64decodeBlocks : List Char → Option (List Nat)
  | [] => some []
  | [c1, c2, '=', '='] => do
    let a ← b64Index c1
    let b ← b64Index c2
    pure [a * 4 + b / 16]
  | [c1, c2, c3, '='] => do
    let a ← b64Index c1
    let b ← b64Index c2
    let c ← b64Index c3
    pure [a * 4 + b / 16, b % 16 * 16 + c / 4]
  | c1 :: c2 :: c3 :: c4 :: rest => do
    let a ← b64Index c1
    let b ← b64Index c2
    let c ← b64Index c3
    let d ← b64Index c4
    let tail ← b64decodeBlocks rest
    pure ((a * 4 + b / 16) :: (b % 16 * 16 + c / 4) :: (c % 4 * 64 + d) :: tail)
  | _ => none

/-- Which base64 primitives the host offers: browsers have `btoa`/`atob`,
Node has `Buffer`; an unknown host may have neither, in which case both
conversions throw. -/
structure JsEnv where
  hasBtoa : Bool
  hasBuffer : Bool
  deriving DecidableEq

/-- The `unicodeToBase64` conversion: UTF-16 string to base64.  Both the `btoa` path and
the `Buffer` path encode the same little-endian code-unit bytes; with
neither primitive available the function throws a `SentryError`. -/
def unicodeToBase64 (env : JsEnv) (units : List Nat) : Except (List Char) (List Char) :=
  if env.hasBtoa then .ok (b64encode (utf16leBytes units))
  else if env.hasBuffer then .ok (b64encode (utf16leBytes units))
  else .error (lit "Unable to convert to base64.")

/-- The `base64ToUnicode` conversion: validate against `BASE64_REGEX` (throwing a
`SentryError` on failure), then decode via `atob` + `Uint16Array`
(browser) or the lenient `Buffer` reader (Node); with neither primitive
available it throws. -/
def base64ToUnicode (env : JsEnv) (s : List Char) : Except (List Char) (List Nat) :=
  if validB64 s then
    if env.hasBtoa then
      match b64decodeBlocks s with
      | none => .error (lit "Unable to convert string from base64.")
      | some bytes =>
        match bytesToUnits bytes with
        | none => .error (lit "Unable to convert string from base64.")
        | some units => .ok units
    else if env.hasBuffer then
      match b64decodeBlocks s with
      | none => .ok []
      | some bytes => .ok (bytesToUnitsLenient bytes)
    else .error (lit "Unable to convert string from base64.")
  else .error (lit "Unable to convert from base64. Input either is not a string or is not valid base64.")

/-- The regex replace of the trailing `=` run: the trailing run of one or
two padding characters becomes a single sentinel dot. -/
def replacePad (s : List Char) : List Char :=
  match s.reverse with
  | '=' :: '=' :: rest => rest.reverse ++ ['.']
  | '=' :: rest => rest.reverse ++ ['.']
  | _ => s

/-- The dot-to-equals replace of envelope assembly: JavaScript string
`replace` with a string pattern rewrites only the first occurrence. -/
def restoreDot : List Char → List Char
  | [] => []
  | c :: rest => if c = '.' then '=' :: rest else c :: restoreDot rest

/-- UTF-16 code units back to characters (surrogate pairs recombined;
`Char.ofNat` maps an unpaired surrogate to a default character, a detail
no theorem depends on). -/
def unitsToChars : List Nat → List Char
  | [] => []
  | [u] => [Char.ofNat (u % 65536)]
  | u1 :: u2 :: rest =>
    if 55296 ≤ u1 % 65536 && u1 % 65536 < 56320 && 56320 ≤ u2 % 65536 && u2 % 65536 < 57344 then
      Char.ofNat (65536 + (u1 % 65536 - 55296) * 1024 + (u2 % 65536 - 56320)) :: unitsToChars rest
    else Char.ofNat (u1 % 65536) :: unitsToChars (u2 :: rest)

/-- Lowercase hexadecimal (and decimal) digits. -/
def hexDigits : List Char := lit "0123456789abcdef"

/-- One lowercase hexadecimal digit. -/
def hexDigit (n : Nat) : Char := hexDigits.getD n '0'

/-- The `JSON.stringify` escaping of one character inside a string
literal. -/
def jsonEscapeChar (c : Char) : List Char :=
  if c = '"' then lit "\\\""
  else if c = '\\' then lit "\\\\"
  else if c = '\x08' then lit "\\b"
  else if c = '\x09' then lit "\\t"
  else if c = '\x0a' then lit "\\n"
  else if c = '\x0c' then lit "\\f"
  else if c = '\x0d' then lit "\\r"
  else if c.toNat < 32 then
    '\\' :: 'u' :: '0' :: '0' :: hexDigit (c.toNat / 16) :: [hexDigit (c.toNat % 16)]
  else [c]

/-- A JSON string literal. -/
def jsonStr (s : List Char) : List Char := '"' :: (s.map jsonEscapeChar).flatten ++ ['"']

/-- Decimal digits of a natural number, most significant first; the fuel
is an upper bound on the number of digits, making the recursion
structural. -/
def natCharsAux : Nat → Nat → List Char → List Char
  | 0, n, acc => hexDigit n :: acc
  | fuel + 1, n, acc =>
    if n < 10 then hexDigit n :: acc
    else natCharsAux fuel (n / 10) (hexDigit (n % 10) :: acc)

/-- Decimal rendering of a natural number. -/
def natChars (n : Nat) : List Char := natCharsAux n n []

/-- Decimal rendering of an integer. -/
def intChars (i : Int) : List Char :=
  if i < 0 then '-' :: natChars i.natAbs else natChars i.natAbs

/-- JSON rendering of a number (JavaScript numbers are embedded as
rationals). -/
def qChars (q : ℚ) : List Char :=
  intChars q.num ++ (if q.den = 1 then [] else '/' :: natChars q.den)

/-- A JSON object member with the given key and already-serialized
value. -/
def jfieldL (k : List Char) (v : List Char) : List Char := jsonStr k ++ ':' :: v

/-- A JSON object member with a literal key. -/
def jfield (k : String) (v : List Char) : List Char := jfieldL (lit k) v

/-- A JSON object from already-serialized members. -/
def jobj (fields : List (List Char)) : List Char :=
  lit "\x7b" ++ List.intercalate (lit ",") fields ++ lit "\x7d"

/-- A JSON array from already-serialized items. -/
def jarr (items : List (List Char)) : List Char :=
  '[' :: List.intercalate (lit ",") items ++ [']']

/-- The member list contributed by an optional value: `JSON.stringify`
drops `undefined` members. -/
def optF (k : String) (v : Option (List Char)) : List (List Char) :=
  match v with
  | none => []
  | some j => [jfield k j]

/-- The `dataStr` of `_getNewTracestate`: `JSON.stringify` of the
four-field record. -/
def tracestateData (traceId publicKey environment release : List Char) : List Char :=
  jobj [jfield "trace_id" (jsonStr traceId), jfield "public_key" (jsonStr publicKey),
        jfield "environment" (jsonStr environment), jfield "release" (jsonStr release)]

/-- The parsed destination identifier; only its public key (`dsn.user`)
feeds the tracestate. -/
structure Dsn where
  user : List Char
  deriving DecidableEq

/-- The client collaborator: an optional parsed DSN and the
environment/release options. -/
structure Client where
  dsn : Option Dsn
  environment : Option (List Char)
  release : Option (List Char)
  deriving DecidableEq

/-- The `Transaction._getNewTracestate` method: `none` models the early `return`
when there is no client or no DSN; a base64 conversion failure is caught
and degraded to the empty string. -/
def getNewTracestate (env : JsEnv) (client : Option Client) (traceId : List Char) :
    Option (List Char) :=
  match client with
  | none => none
  | some c =>
    match c.dsn with
    | none => none
    | some d =>
      let environment := jsOrStr c.environment (lit "no environment specified")
      let release := jsOrStr c.release (lit "no release specified")
      let dataStr := tracestateData traceId d.user environment release
      match unicodeToBase64 env (strUtf16 dataStr) with
      | .ok b64 => some (replacePad b64)
      | .error _ => some []

/-- The `tracestate` assignment of the `Transaction` constructor: the
context value, else a fresh tracestate, else the fixed fallback string. -/
def constructorTracestate (env : JsEnv) (ctxTracestate : Option (List Char))
    (client : Option Client) (traceId : List Char) : List Char :=
  jsOrStr ctxTracestate (jsOrStr (getNewTracestate env client traceId) (lit "things are broken"))

/-- JSON rendering of a recorded span.  Modelled from the spec: the
`Span` class and its `toJSON` are not part of the analysed sources; the
model serializes the one field it carries. -/
def spanJson (s : RSpan) : List Char :=
  jobj (optF "timestamp" (s.endTimestamp.map qChars))

/-- JSON rendering of a tag map. -/
def tagsJson (tags : List (List Char × List Char)) : List Char :=
  jobj (tags.map fun p => jfieldL p.1 (jsonStr p.2))

/-- JSON rendering of the measurement map (`name -> record with value`). -/
def measurementsJson (ms : List (List Char × ℚ)) : List Char :=
  jobj (ms.map fun p => jfieldL p.1 (jobj [jfield "value" (qChars p.2)]))

/-- JSON rendering of a trace context (undefined members dropped). -/
def traceCtxJson (tc : TraceContext) : List Char :=
  jobj ([jfield "trace_id" (jsonStr tc.trace_id), jfield "span_id" (jsonStr tc.span_id)] ++
        optF "parent_span_id" (tc.parent_span_id.map jsonStr) ++
        optF "op" (tc.op.map jsonStr) ++
        optF "description" (tc.description.map jsonStr) ++
        optF "status" (tc.status.map jsonStr))

/-- JSON rendering of `event.contexts`. -/
def contextsJson (tc : TraceContext) : List Char :=
  jobj [jfield "trace" (traceCtxJson tc)]

/-- Serialization of a whole event: undefined fields are dropped. -/
def eventJson (e : Event) : List Char :=
  jobj (optF "event_id" (e.event_id.map jsonStr) ++
        optF "contexts" (e.contexts.map contextsJson) ++
        optF "spans" (e.spans.map fun l => jarr (l.map spanJson)) ++
        optF "start_timestamp" (e.start_timestamp.map qChars) ++
        optF "tags" (e.tags.map tagsJson) ++
        optF "timestamp" (e.timestamp.map qChars) ++
        optF "tracestate" (e.tracestate.map jsonStr) ++
        optF "transaction" (e.transaction.map jsonStr) ++
        optF "type" (e.type.map jsonStr) ++
        optF "measurements" (e.measurements.map measurementsJson))

/-- The API collaborator.  Modelled from the spec: `api.ts` is not part
of the analysed sources; the spec only requires a store endpoint and a
distinct envelope endpoint. -/
structure API where
  storeEndpoint : List Char
  envelopeEndpoint : List Char
  deriving DecidableEq

/-- An outbound request. -/
structure SentryRequest where
  body : List Char
  type : List Char
  url : List Char
  deriving DecidableEq

/-- The `tracestateJSON` computation of `transactionToSentryRequest`: an
absent or empty `event.tracestate` yields `undefined`; a decoding failure
is caught and degraded to the empty string. -/
def tracestateDecoded (env : JsEnv) (ts : Option (List Char)) : Option (List Char) :=
  match ts with
  | none => none
  | some t =>
    if t = [] then none
    else
      match base64ToUnicode env (restoreDot t) with
      | .ok units => some (unitsToChars units)
      | .error _ => some []

/-- The envelope header line: event id, send timestamp, trace id and the
decoded tracestate (undefined members dropped). -/
def envelopeHeaders (sentAt : List Char) (event : Event) (trace : Option (List Char)) :
    List Char :=
  jobj (optF "event_id" (event.event_id.map jsonStr) ++
        [jfield "sent_at" (jsonStr sentAt)] ++
        optF "trace_id" ((event.contexts.map fun tc => tc.trace_id).map jsonStr) ++
        optF "trace" (trace.map jsonStr))

/-- The item header line: `JSON.stringify` of the record holding the
type of the event. -/
def itemHeaders (event : Event) : List Char :=
  jobj (optF "type" (event.type.map jsonStr))

/-- The `transactionToSentryRequest` serializer: decode the tracestate, delete it from
the event, and emit the three-line envelope body.  `sentAt` stands for
`new Date().toISOString()`. -/
def transactionToSentryRequest (env : JsEnv) (sentAt : List Char) (api : API)
    (event : Event) : SentryRequest :=
  let tsJ := tracestateDecoded env event.tracestate
  let event2 := { event with tracestate := none }
  { body := envelopeHeaders sentAt event2 tsJ ++ '\n' :: itemHeaders event2 ++
      '\n' :: eventJson event2
    type := lit "transaction"
    url := api.envelopeEndpoint }

/-- The `eventToSentryRequest` dispatcher: transactions go to the envelope endpoint;
every other event is a flat JSON body for the store endpoint. -/
def eventToSentryRequest (env : JsEnv) (sentAt : List Char) (api : API)
    (event : Event) : SentryRequest :=
  if event.type = some (lit "transaction") then transactionToSentryRequest env sentAt api event
  else
    { body := eventJson event
      type := jsOrStr event.type (lit "event")
      url := api.storeEndpoint }

/-- A value handed to the sampler: JavaScript is dynamically typed, so a
configured rate or a decision-function result may be a number, a boolean,
`NaN`, or something else entirely. -/
inductive SampleVal where
  | num (q : ℚ)
  | boolean (b : Bool)
  | nan
  | other
  deriving DecidableEq

/-- Modelled from the spec: the shared validation rule of sampler steps 3
and 5 (the sampler itself is not part of the analysed sources).  Booleans
coerce to 1/0; numbers must lie in [0,1]; everything else is rejected. -/
def normalizeRate : SampleVal → Option ℚ
  | .boolean true => some 1
  | .boolean false => some 0
  | .num q => if 0 ≤ q ∧ q ≤ 1 then some q else none
  | _ => none

/-- Modelled from the spec: the `resolve` precedence of the sampler (the
sampler itself is not part of the analysed sources — only its tests are).
`hasSampler`/`samplerReturn` stand for the configured decision function
and the value it returns; `random` is the shared pseudo-random draw. -/
def resolveSampled (ctxSampled parentSampled : Option Bool) (hasClient : Bool)
    (rate : Option SampleVal) (hasSampler : Bool) (samplerReturn : SampleVal)
    (random : ℚ) : Bool :=
  match ctxSampled with
  | some b => b
  | none =>
    if !hasClient || (rate = none && !hasSampler) then false
    else if hasSampler then
      match normalizeRate samplerReturn with
      | none => false
      | some p => random < p
    else
      match parentSampled with
      | some b => b
      | none =>
        match rate with
        | none => false
        | some r =>
          match normalizeRate r with
          | none => false
          | some p => random < p

/-- A browser-like host (both `btoa`/`atob` and `Buffer` modelled as
available). -/
def envStd : JsEnv := ⟨true, true⟩

/-- A host with neither base64 primitive: every conversion throws. -/
def envBare : JsEnv := ⟨false, false⟩

/-- A sample API collaborator with distinct endpoints. -/
def apiW : API :=
  ⟨lit "https://sentry.io/api/12312012/store/", lit "https://sentry.io/api/12312012/envelope/"⟩

/-- A sample DSN. -/
def dsnW : Dsn := ⟨lit "dogsarebadatkeepingsecrets"⟩

/-- A sample configured client. -/
def clientW : Client := ⟨some dsnW, some (lit "dogpark"), some (lit "off.leash.park")⟩

/-- A sample trace id. -/
def traceIdW : List Char := lit "12312012123120121231201212312012"

/-- A sample transaction event for envelope instantiations. -/
def eventW : Event :=
  ⟨some (lit "aaeeddff"), some tcW, some [⟨false, some 7⟩], some 1, some [(lit "dog", lit "cory")],
    some 10, some (lit "YQA."), some (lit "dogpark"), some (lit "transaction"), none⟩

/-- The tracestate value the codec computes for `clientW`/`traceIdW`. -/
def tsW : List Char := (getNewTracestate envStd (some clientW) traceIdW).getD []

/-- Absence of a raw newline, the property that keeps envelope lines
intact. -/
def noNL (s : List Char) : Prop := '\n' ∉ s

lemma qTruthy_eq_some (o : Option ℚ) (h : qTruthy o = true) : o = some (o.getD 0) := by
  cases o <;> simp [qTruthy] at h ⊢

lemma laterSpan_spec (a b : RSpan) (ha : qTruthy a.endTimestamp = true)
    (hb : qTruthy b.endTimestamp = true) :
    qTruthy (laterSpan a b).endTimestamp = true ∧
    (laterSpan a b).endTimestamp.getD 0 =
      max (a.endTimestamp.getD 0) (b.endTimestamp.getD 0) := by
  unfold laterSpan
  rw [ha, hb]
  simp only [Bool.and_self, if_true]
  split
  · exact ⟨ha, (max_eq_left (le_of_lt (by assumption))).symm⟩
  · rename_i hle
    push_neg at hle
    exact ⟨hb, (max_eq_right hle).symm⟩

lemma reduceSpans_max (hd : RSpan) (tl : List RSpan)
    (hhd : qTruthy hd.endTimestamp = true)
    (htl : ∀ s ∈ tl, qTruthy s.endTimestamp = true) :
    (reduceSpans hd tl).endTimestamp = some (maxEndVal (hd :: tl)) := by
  induction tl generalizing hd with
  | nil =>
    simp [reduceSpans, maxEndVal]
    exact qTruthy_eq_some _ hhd
  | cons s rest ih =>
    have hs : qTruthy s.endTimestamp = true := htl s (by simp)
    have hrest : ∀ x ∈ rest, qTruthy x.endTimestamp = true := fun x hx => htl x (by simp [hx])
    have hls := laterSpan_spec hd s hhd hs
    have step : reduceSpans hd (s :: rest) = reduceSpans (laterSpan hd s) rest := rfl
    rw [step, ih (laterSpan hd s) hls.1 hrest]
    simp [maxEndVal, hls.2]

lemma finishedChildren_truthy (tx : TxState) :
    ∀ s ∈ finishedChildren tx, qTruthy s.endTimestamp = true := by
  intro s hs
  unfold finishedChildren at hs
  cases h : tx.spanRecorder with
  | none => rw [h] at hs; simp at hs
  | some l =>
    rw [h] at hs
    have h2 := (List.mem_filter.mp hs).2
    simp only [Bool.and_eq_true] at h2
    exact h2.2

/-- C1: a second `finish` on an already-finished transaction returns
`undefined`, leaves the whole transaction state unchanged and does not
invoke the `captureEvent` of the client. -/
theorem finish_second_call_noop (tx : TxState) (e : Option ℚ) (now : ℚ)
    (r : Option (List Char)) (h : tx.endTimestamp.isSome = true) :
    Transaction.finish tx e now r = ⟨tx, none, none⟩ := by
  unfold Transaction.finish
  simp [h]

/-- Witness for C1: a concrete finished transaction, finished again. -/
theorem finish_second_call_noop_witness :
    Transaction.finish { txW with endTimestamp := some 5 } (some 9) 9 (some (lit "id")) =
      ⟨{ txW with endTimestamp := some 5 }, none, none⟩ :=
  finish_second_call_noop { txW with endTimestamp := some 5 } (some 9) 9 (some (lit "id"))
    (by decide)

/-- C2: on a transaction whose `sampled` is not strictly `true`, the first
`finish` sets the end timestamp but returns `undefined` and dispatches no
event to `captureEvent`. -/
theorem finish_unsampled_no_dispatch (tx : TxState) (e : Option ℚ) (now : ℚ)
    (r : Option (List Char)) (h1 : tx.endTimestamp = none) (h2 : tx.sampled ≠ some true) :
    (Transaction.finish tx e now r).tx.endTimestamp = some (e.getD now) ∧
    (Transaction.finish tx e now r).ret = none ∧
    (Transaction.finish tx e now r).dispatched = none := by
  unfold Transaction.finish
  simp only [h1, Option.isSome_none, Bool.false_eq_true, if_false]
  split <;> simp [h2]

/-- Witness for C2: a concrete `sampled = false` transaction. -/
theorem finish_unsampled_no_dispatch_witness :
    (Transaction.finish { txW with sampled := some false } none 9 (some (lit "id"))).tx.endTimestamp =
        some ((none : Option ℚ).getD 9) ∧
    (Transaction.finish { txW with sampled := some false } none 9 (some (lit "id"))).ret = none ∧
    (Transaction.finish { txW with sampled := some false } none 9 (some (lit "id"))).dispatched =
        none :=
  finish_unsampled_no_dispatch { txW with sampled := some false } none 9 (some (lit "id"))
    (by decide) (by decide)

/-- Counterexample to C3 as stated: finishing `txW` (trim flag set, one
child finished at `20`) with explicit end timestamp `10` yields a final
end timestamp of `20` — the trim recomputation extended the end of the
transaction past the timestamp set by the finish call instead of only
shrinking it. -/
theorem finish_trimEnd_extends_counterexample :
    (Transaction.finish txW (some 10) 0 none).tx.endTimestamp = some 20 ∧
      ¬ ((20 : ℚ) ≤ 10) := by
  constructor
  · decide
  · norm_num

/-- C3 (amended): for a sampled transaction finished with the trim flag
set and a non-empty list of finished children, the final end timestamp
equals the maximum end timestamp among those finished children (it may
exceed the timestamp passed to `finish`). -/
theorem finish_trimEnd_sets_children_max (tx : TxState) (e : Option ℚ) (now : ℚ)
    (r : Option (List Char)) (h1 : tx.endTimestamp = none) (h2 : tx.sampled = some true)
    (h3 : obTruthy tx.trimEnd = true) (h4 : finishedChildren tx ≠ []) :
    (Transaction.finish tx e now r).tx.endTimestamp =
      some (maxEndVal (finishedChildren tx)) := by
  obtain ⟨nm, st, et, sa, tg, rec, tr, ms, tst, tcx⟩ := tx
  simp only at h1 h2 h3 h4 ⊢
  subst h1 h2
  unfold Transaction.finish
  simp only [Option.isSome_none, Bool.false_eq_true, if_false]
  have htr : ∀ (u : TxState), u.spanRecorder = rec →
      finishedChildren u =
        finishedChildren ⟨nm, st, none, some true, tg, rec, tr, ms, tst, tcx⟩ := by
    intro u hu
    unfold finishedChildren
    rw [hu]
  split
  all_goals {
    rw [if_neg (by simp)]
    rcases hfc : finishedChildren (⟨nm, st, none, some true, tg, rec, tr, ms, tst, tcx⟩ : TxState)
      with _ | ⟨hd, tl⟩
    · exact absurd hfc h4
    · rw [htr _ rfl, hfc]
      simp only [h3]
      have hm := reduceSpans_max hd tl
        (finishedChildren_truthy _ hd (by rw [hfc]; simp))
        (fun s hs => finishedChildren_truthy _ s (by rw [hfc]; simp [hs]))
      simp [hm]
  }

/-- Witness for C3 (amended): the concrete transaction `txW`. -/
theorem finish_trimEnd_sets_children_max_witness :
    (Transaction.finish txW (some 10) 0 none).tx.endTimestamp =
      some (maxEndVal (finishedChildren txW)) :=
  finish_trimEnd_sets_children_max txW (some 10) 0 none (by decide) (by decide) (by decide)
    (by decide)

lemma getD_ne (l : List Char) (d x : Char) (hl : ∀ c ∈ l, c ≠ x) (hd : d ≠ x) (k : Nat) :
    l.getD k d ≠ x := by
  induction l generalizing k with
  | nil => simpa [List.getD] using hd
  | cons a t ih =>
    cases k with
    | zero => simpa [List.getD] using hl a (by simp)
    | succ n =>
      rw [List.getD_cons_succ]
      exact ih (fun c hc => hl c (by simp [hc])) n

lemma b64Char_ne_eq (n : Nat) : b64Char n ≠ '=' :=
  getD_ne _ _ _ (by decide) (by decide) n

lemma eq_ne_b64Char (n : Nat) : '=' ≠ b64Char n := (b64Char_ne_eq n).symm

lemma b64encode_shape : ∀ (bytes : List Nat),
    b64encode bytes = [] ∨
    (∃ body, b64encode bytes = body ++ ['='] ∧ '=' ∉ body) ∨
    (∃ body, b64encode bytes = body ++ ['=', '='] ∧ '=' ∉ body) ∨
    ('=' ∉ b64encode bytes ∧ b64encode bytes ≠ [])
  | [] => Or.inl rfl
  | [b1] => by
    right; right; left
    refine ⟨[b64Char (b1 % 256 / 4), b64Char (b1 % 256 % 4 * 16)], ?_, ?_⟩
    · rfl
    · simp [b64Char_ne_eq, eq_ne_b64Char]
  | [b1, b2] => by
    right; left
    refine ⟨[b64Char (b1 % 256 / 4), b64Char (b1 % 256 % 4 * 16 + b2 % 256 / 16),
             b64Char (b2 % 256 % 16 * 4)], ?_, ?_⟩
    · rfl
    · simp [b64Char_ne_eq, eq_ne_b64Char]
  | b1 :: b2 :: b3 :: rest => by
    have ih := b64encode_shape rest
    have hstep : b64encode (b1 :: b2 :: b3 :: rest) =
        b64Char (b1 % 256 / 4) :: b64Char (b1 % 256 % 4 * 16 + b2 % 256 / 16) ::
        b64Char (b2 % 256 % 16 * 4 + b3 % 256 / 64) :: b64Char (b3 % 256 % 64) ::
        b64encode rest := by
      conv_lhs => rw [b64encode]
    rcases ih with h | ⟨body, hb, hne⟩ | ⟨body, hb, hne⟩ | ⟨hne, hnil⟩
    · right; right; right
      rw [hstep, h]
      exact ⟨by simp [b64Char_ne_eq, eq_ne_b64Char], by simp⟩
    · right; left
      refine ⟨b64Char (b1 % 256 / 4) :: b64Char (b1 % 256 % 4 * 16 + b2 % 256 / 16) ::
          b64Char (b2 % 256 % 16 * 4 + b3 % 256 / 64) :: b64Char (b3 % 256 % 64) :: body, ?_, ?_⟩
      · rw [hstep, hb]; simp
      · simp [b64Char_ne_eq, eq_ne_b64Char, hne]
    · right; right; left
      refine ⟨b64Char (b1 % 256 / 4) :: b64Char (b1 % 256 % 4 * 16 + b2 % 256 / 16) ::
          b64Char (b2 % 256 % 16 * 4 + b3 % 256 / 64) :: b64Char (b3 % 256 % 64) :: body, ?_, ?_⟩
      · rw [hstep, hb]; simp
      · simp [b64Char_ne_eq, eq_ne_b64Char, hne]
    · right; right; right
      rw [hstep]
      refine ⟨?_, by simp⟩
      simp only [List.mem_cons, not_or]
      exact ⟨eq_ne_b64Char _, eq_ne_b64Char _, eq_ne_b64Char _, eq_ne_b64Char _, hne⟩

lemma replacePad_eq2 (body : List Char) : replacePad (body ++ ['=', '=']) = body ++ ['.'] := by
  unfold replacePad
  rw [List.reverse_append]
  simp

lemma replacePad_eq1 (body : List Char) (h : '=' ∉ body) :
    replacePad (body ++ ['=']) = body ++ ['.'] := by
  unfold replacePad
  rw [List.reverse_append]
  simp only [List.reverse_cons, List.reverse_nil, List.nil_append, List.singleton_append]
  cases hb : body.reverse with
  | nil =>
    have : body = [] := List.reverse_eq_nil_iff.mp hb
    subst this
    simp
  | cons c r =>
    have hc : c ≠ '=' := by
      intro he
      apply h
      subst he
      exact List.mem_reverse.mp (by rw [hb]; simp)
    split
    · rename_i heq
      simp only [List.cons.injEq] at heq
      exact absurd heq.2.1 hc
    · rename_i a rest hcond heq
      simp only [List.cons.injEq, true_and] at heq
      subst heq
      have hrb : (c :: r).reverse = body := by rw [← hb]; simp
      rw [hrb]
    · rename_i a hno1 hno2
      exact absurd rfl (hno2 (c :: r))

lemma replacePad_of_no_eq (s : List Char) (h : '=' ∉ s) : replacePad s = s := by
  unfold replacePad
  cases hs : s.reverse with
  | nil => rfl
  | cons c r =>
    have hc : c ≠ '=' := by
      intro he
      apply h
      subst he
      exact List.mem_reverse.mp (by rw [hs]; simp)
    split
    · rename_i heq
      simp only [List.cons.injEq] at heq
      exact absurd heq.1 hc
    · rename_i a rest hcond heq
      simp only [List.cons.injEq] at heq
      exact absurd heq.1 hc
    · rfl

lemma replacePad_b64encode_no_eq (bytes : List Nat) : '=' ∉ replacePad (b64encode bytes) := by
  rcases b64encode_shape bytes with h | ⟨body, hb, hne⟩ | ⟨body, hb, hne⟩ | ⟨hne, _⟩
  · rw [h]
    simp [replacePad]
  · rw [hb, replacePad_eq1 body hne]
    simp [hne]
  · rw [hb, replacePad_eq2 body]
    simp [hne]
  · rw [replacePad_of_no_eq _ hne]
    exact hne

lemma unicodeToBase64_ok (env : JsEnv) (units : List Nat) (b64 : List Char)
    (h : unicodeToBase64 env units = .ok b64) : b64 = b64encode (utf16leBytes units) := by
  unfold unicodeToBase64 at h
  split at h
  · injection h with h1
    exact h1.symm
  · split at h
    · injection h with h1
      exact h1.symm
    · exact absurd h (by simp)


lemma noNL_lit (s : String) (h : '\n' ∉ s.toList) : noNL (lit s) := h

lemma noNL_nil : noNL [] := by simp [noNL]

lemma noNL_append {a b : List Char} (ha : noNL a) (hb : noNL b) : noNL (a ++ b) := by
  unfold noNL at *
  simp [ha, hb]

lemma noNL_cons {c : Char} {cs : List Char} (hc : c ≠ '\n') (hcs : noNL cs) :
    noNL (c :: cs) := by
  unfold noNL at *
  simp only [List.mem_cons, not_or]
  exact ⟨fun h => hc h.symm, hcs⟩

lemma hexDigit_ne_nl (n : Nat) : hexDigit n ≠ '\n' :=
  getD_ne _ _ _ (by decide) (by decide) n

lemma jsonEscapeChar_ne_nl (c : Char) : ∀ x ∈ jsonEscapeChar c, x ≠ '\n' := by
  unfold jsonEscapeChar
  split_ifs with h1 h2 h3 h4 h5 h6 h7 h8
  · decide
  · decide
  · decide
  · decide
  · decide
  · decide
  · decide
  · intro x hx
    simp at hx
    rcases hx with rfl | rfl | rfl | rfl | rfl
    · decide
    · decide
    · decide
    · exact hexDigit_ne_nl _
    · exact hexDigit_ne_nl _
  · intro x hx
    simp at hx
    rcases hx with rfl
    exact h5

lemma noNL_jsonStr (s : List Char) : noNL (jsonStr s) := by
  unfold jsonStr
  apply noNL_cons (by decide)
  apply noNL_append _ (noNL_lit "\"" (by decide))
  unfold noNL
  intro hmem
  rcases List.mem_flatten.mp hmem with ⟨l, hl, hx⟩
  rcases List.mem_map.mp hl with ⟨c, _, rfl⟩
  exact jsonEscapeChar_ne_nl c _ hx rfl

lemma noNL_natCharsAux (fuel : Nat) : ∀ (n : Nat) (acc : List Char),
    noNL acc → noNL (natCharsAux fuel n acc) := by
  induction fuel with
  | zero =>
    intro n acc hacc
    exact noNL_cons (hexDigit_ne_nl _) hacc
  | succ f ih =>
    intro n acc hacc
    unfold natCharsAux
    split
    · exact noNL_cons (hexDigit_ne_nl _) hacc
    · exact ih _ _ (noNL_cons (hexDigit_ne_nl _) hacc)

lemma noNL_natChars (n : Nat) : noNL (natChars n) :=
  noNL_natCharsAux n n [] noNL_nil

lemma noNL_intChars (i : Int) : noNL (intChars i) := by
  unfold intChars
  split
  · exact noNL_cons (by decide) (noNL_natChars _)
  · exact noNL_natChars _

lemma noNL_qChars (q : ℚ) : noNL (qChars q) := by
  unfold qChars
  apply noNL_append (noNL_intChars _)
  split
  · exact noNL_nil
  · exact noNL_cons (by decide) (noNL_natChars _)

lemma mem_intersperse {α : Type} (sep : α) : ∀ (l : List α) (x : α),
    x ∈ List.intersperse sep l → x = sep ∨ x ∈ l
  | [], x, h => by simp at h
  | [a], x, h => by
    simp [List.intersperse_singleton] at h
    exact Or.inr (by simp [h])
  | a :: b :: t, x, h => by
    rw [List.intersperse_cons_cons] at h
    simp only [List.mem_cons] at h
    rcases h with rfl | rfl | h
    · exact Or.inr (by simp)
    · exact Or.inl rfl
    · rcases mem_intersperse sep (b :: t) x h with h | h
      · exact Or.inl h
      · exact Or.inr (by simp [List.mem_cons] at h ⊢; tauto)

lemma noNL_intercalate (sep : List Char) (l : List (List Char)) (hsep : noNL sep)
    (hl : ∀ f ∈ l, noNL f) : noNL (List.intercalate sep l) := by
  unfold noNL List.intercalate
  intro hmem
  rcases List.mem_flatten.mp hmem with ⟨piece, hp, hx⟩
  rcases mem_intersperse sep l piece hp with rfl | hpl
  · exact hsep hx
  · exact hl piece hpl hx

lemma noNL_jobj (fields : List (List Char)) (h : ∀ f ∈ fields, noNL f) :
    noNL (jobj fields) := by
  unfold jobj
  exact noNL_append
    (noNL_append (noNL_lit "\x7b" (by decide)) (noNL_intercalate _ _ (noNL_lit "," (by decide)) h))
    (noNL_lit "\x7d" (by decide))

lemma noNL_jarr (items : List (List Char)) (h : ∀ f ∈ items, noNL f) :
    noNL (jarr items) := by
  unfold jarr
  exact noNL_cons (by decide)
    (noNL_append (noNL_intercalate _ _ (noNL_lit "," (by decide)) h) (noNL_lit "]" (by decide)))

lemma noNL_jfieldL (k v : List Char) (hv : noNL v) : noNL (jfieldL k v) := by
  unfold jfieldL
  exact noNL_append (noNL_jsonStr _) (noNL_cons (by decide) hv)

lemma noNL_jfield (k : String) (v : List Char) (hv : noNL v) : noNL (jfield k v) :=
  noNL_jfieldL _ _ hv

lemma noNL_optF (k : String) (v : Option (List Char)) (hv : ∀ j, v = some j → noNL j) :
    ∀ f ∈ optF k v, noNL f := by
  unfold optF
  cases v with
  | none => simp
  | some j =>
    intro f hf
    simp at hf
    subst hf
    exact noNL_jfield _ _ (hv j rfl)

lemma forall_noNL_append {A B : List (List Char)} (ha : ∀ f ∈ A, noNL f)
    (hb : ∀ f ∈ B, noNL f) : ∀ f ∈ A ++ B, noNL f := by
  intro f hf
  rcases List.mem_append.mp hf with h | h
  · exact ha f h
  · exact hb f h

lemma noNL_optF_map {β : Type} (k : String) (o : Option β) (g : β → List Char)
    (hg : ∀ b, noNL (g b)) : ∀ f ∈ optF k (o.map g), noNL f := by
  apply noNL_optF
  intro j hj
  rcases Option.map_eq_some'.mp hj with ⟨b, _, rfl⟩
  exact hg b

lemma noNL_spanJson (s : RSpan) : noNL (spanJson s) :=
  noNL_jobj _ (noNL_optF_map _ _ _ noNL_qChars)

lemma noNL_tagsJson (tags : List (List Char × List Char)) : noNL (tagsJson tags) := by
  apply noNL_jobj
  intro f hf
  rcases List.mem_map.mp hf with ⟨p, _, rfl⟩
  exact noNL_jfieldL _ _ (noNL_jsonStr _)

lemma noNL_measurementsJson (ms : List (List Char × ℚ)) : noNL (measurementsJson ms) := by
  apply noNL_jobj
  intro f hf
  rcases List.mem_map.mp hf with ⟨p, _, rfl⟩
  apply noNL_jfieldL
  apply noNL_jobj
  intro g hg
  simp at hg
  subst hg
  exact noNL_jfield _ _ (noNL_qChars _)

lemma noNL_traceCtxJson (tc : TraceContext) : noNL (traceCtxJson tc) := by
  unfold traceCtxJson
  apply noNL_jobj
  apply forall_noNL_append
  apply forall_noNL_append
  apply forall_noNL_append
  apply forall_noNL_append
  · intro f hf
    simp at hf
    rcases hf with rfl | rfl <;> exact noNL_jfield _ _ (noNL_jsonStr _)
  · exact noNL_optF_map _ _ _ noNL_jsonStr
  · exact noNL_optF_map _ _ _ noNL_jsonStr
  · exact noNL_optF_map _ _ _ noNL_jsonStr
  · exact noNL_optF_map _ _ _ noNL_jsonStr

lemma noNL_contextsJson (tc : TraceContext) : noNL (contextsJson tc) := by
  apply noNL_jobj
  intro f hf
  simp [contextsJson] at hf
  subst hf
  exact noNL_jfield _ _ (noNL_traceCtxJson _)

lemma noNL_eventJson (e : Event) : noNL (eventJson e) := by
  unfold eventJson
  apply noNL_jobj
  apply forall_noNL_append
  apply forall_noNL_append
  apply forall_noNL_append
  apply forall_noNL_append
  apply forall_noNL_append
  apply forall_noNL_append
  apply forall_noNL_append
  apply forall_noNL_append
  apply forall_noNL_append
  · exact noNL_optF_map _ _ _ noNL_jsonStr
  · exact noNL_optF_map _ _ _ noNL_contextsJson
  · apply noNL_optF_map
    intro l
    apply noNL_jarr
    intro f hf
    rcases List.mem_map.mp hf with ⟨sp, _, rfl⟩
    exact noNL_spanJson sp
  · exact noNL_optF_map _ _ _ noNL_qChars
  · exact noNL_optF_map _ _ _ noNL_tagsJson
  · exact noNL_optF_map _ _ _ noNL_qChars
  · exact noNL_optF_map _ _ _ noNL_jsonStr
  · exact noNL_optF_map _ _ _ noNL_jsonStr
  · exact noNL_optF_map _ _ _ noNL_jsonStr
  · exact noNL_optF_map _ _ _ noNL_measurementsJson

lemma noNL_envelopeHeaders (sentAt : List Char) (event : Event) (trace : Option (List Char)) :
    noNL (envelopeHeaders sentAt event trace) := by
  unfold envelopeHeaders
  apply noNL_jobj
  apply forall_noNL_append
  apply forall_noNL_append
  apply forall_noNL_append
  · exact noNL_optF_map _ _ _ noNL_jsonStr
  · intro f hf
    simp at hf
    subst hf
    exact noNL_jfield _ _ (noNL_jsonStr _)
  · exact noNL_optF_map _ _ _ noNL_jsonStr
  · exact noNL_optF_map _ _ _ noNL_jsonStr

lemma noNL_itemHeaders (event : Event) : noNL (itemHeaders event) :=
  noNL_jobj _ (noNL_optF_map _ _ _ noNL_jsonStr)

lemma jobj_getLast (fields : List (List Char)) : (jobj fields).getLast? = some '\x7d' := by
  unfold jobj
  rw [List.append_assoc, List.getLast?_append]
  simp [lit]

lemma getLast_append_some {a c : List Char} {x : Char} (h : c.getLast? = some x) :
    (a ++ c).getLast? = some x := by
  rw [List.getLast?_append, h]
  rfl

lemma jsOrStr_some (t b : List Char) (h : t ≠ []) : jsOrStr (some t) b = t := by
  simp [jsOrStr, h]

lemma jsOrStr_ne_nil (a : Option (List Char)) (b : List Char) (hb : b ≠ []) :
    jsOrStr a b ≠ [] := by
  cases a with
  | none => exact hb
  | some t =>
    by_cases ht : t = []
    · simp [jsOrStr, ht]
      exact hb
    · simp [jsOrStr, ht]

/-- C8: a successfully computed tracestate value contains no `=`: the
base64 conversion never fails silently with an `=` left over — any `.ok`
result of the encoder, with its trailing padding run replaced by the dot
sentinel, is free of `=`, and so is every tracestate `_getNewTracestate`
returns. -/
theorem tracestate_value_no_equals (env : JsEnv) (units : List Nat) (b64 : List Char)
    (client : Option Client) (traceId ts : List Char) :
    (unicodeToBase64 env units = .ok b64 → '=' ∉ replacePad b64) ∧
    (getNewTracestate env client traceId = some ts → '=' ∉ ts) := by
  constructor
  · intro h
    rw [unicodeToBase64_ok env units b64 h]
    exact replacePad_b64encode_no_eq _
  · intro h
    cases client with
    | none => simp [getNewTracestate] at h
    | some c =>
      unfold getNewTracestate at h
      dsimp only at h
      cases hd : c.dsn with
      | none => rw [hd] at h; simp at h
      | some d =>
        rw [hd] at h
        simp only at h
        cases hu : unicodeToBase64 env (strUtf16 (tracestateData traceId d.user
            (jsOrStr c.environment (lit "no environment specified"))
            (jsOrStr c.release (lit "no release specified")))) with
        | ok b =>
          rw [hu] at h
          simp only [Option.some.injEq] at h
          subst h
          rw [unicodeToBase64_ok _ _ _ hu]
          exact replacePad_b64encode_no_eq _
        | error e =>
          rw [hu] at h
          simp only [Option.some.injEq] at h
          subst h
          simp

/-- Witness for C8: the encoding of the code unit list of "a", and the
concrete tracestate computed for `clientW`. -/
theorem tracestate_value_no_equals_witness :
    ('=' ∉ replacePad (lit "YQA=")) ∧ ('=' ∉ tsW) :=
  ⟨(tracestate_value_no_equals envStd [97] (lit "YQA=") (some clientW) traceIdW tsW).1 rfl,
   (tracestate_value_no_equals envStd [97] (lit "YQA=") (some clientW) traceIdW tsW).2 rfl⟩

/-- C4: the tracestate round trip fails on this record (whose JSON
serialization needs two base64 padding characters): encoding succeeds and
produces `tsW`, but restoring the single dot to a single `=` leaves an
invalid base64 string, so decoding throws and envelope assembly degrades
the value to the empty string instead of the original record. -/
theorem tracestate_two_padding_roundtrip_bug :
    getNewTracestate envStd (some clientW) traceIdW = some tsW ∧
    tsW ≠ [] ∧
    (base64ToUnicode envStd (restoreDot tsW)).isOk = false ∧
    tracestateDecoded envStd (some tsW) = some [] ∧
    tracestateData traceIdW (lit "dogsarebadatkeepingsecrets") (lit "dogpark")
      (lit "off.leash.park") ≠ [] := by
  refine ⟨rfl, by decide, by decide, by decide, by decide⟩

/-- C7: for a transaction event the request body is exactly three
newline-free JSON lines joined by single newlines — envelope header, the
item header for the transaction type, and the serialized event with its
tracestate field removed — and the body ends with the closing brace of
the event JSON, not a newline. -/
theorem transaction_envelope_three_lines (env : JsEnv) (sentAt : List Char) (api : API)
    (event : Event) (h : event.type = some (lit "transaction")) :
    (transactionToSentryRequest env sentAt api event).body =
      envelopeHeaders sentAt { event with tracestate := none }
          (tracestateDecoded env event.tracestate) ++
        '\n' :: lit "\x7b\"type\":\"transaction\"\x7d" ++
        '\n' :: eventJson { event with tracestate := none } ∧
    noNL (envelopeHeaders sentAt { event with tracestate := none }
      (tracestateDecoded env event.tracestate)) ∧
    noNL (lit "\x7b\"type\":\"transaction\"\x7d") ∧
    noNL (eventJson { event with tracestate := none }) ∧
    (transactionToSentryRequest env sentAt api event).body.getLast? = some '\x7d' := by
  have hitem : itemHeaders { event with tracestate := none } =
      lit "\x7b\"type\":\"transaction\"\x7d" := by
    unfold itemHeaders
    rw [show ({ event with tracestate := none } : Event).type = event.type from rfl, h]
    rfl
  have hbody : (transactionToSentryRequest env sentAt api event).body =
      envelopeHeaders sentAt { event with tracestate := none }
          (tracestateDecoded env event.tracestate) ++
        '\n' :: lit "\x7b\"type\":\"transaction\"\x7d" ++
        '\n' :: eventJson { event with tracestate := none } := by
    unfold transactionToSentryRequest
    dsimp only
    rw [hitem]
  refine ⟨hbody, noNL_envelopeHeaders _ _ _, noNL_lit _ (by decide), noNL_eventJson _, ?_⟩
  rw [hbody]
  have hC : (eventJson { event with tracestate := none }).getLast? = some '\x7d' := by
    unfold eventJson
    exact jobj_getLast _
  have hnlC : (('\n' : Char) :: eventJson { event with tracestate := none }).getLast? =
      some '\x7d' := by
    rw [show (('\n' : Char) :: eventJson { event with tracestate := none }) =
      ['\n'] ++ eventJson { event with tracestate := none } from rfl]
    exact getLast_append_some hC
  exact getLast_append_some hnlC

/-- Witness for C7: the concrete transaction event `eventW`. -/
theorem transaction_envelope_three_lines_witness :
    (transactionToSentryRequest envStd (lit "2021-01-01T00:00:00.000Z") apiW eventW).body =
      envelopeHeaders (lit "2021-01-01T00:00:00.000Z") { eventW with tracestate := none }
          (tracestateDecoded envStd eventW.tracestate) ++
        '\n' :: lit "\x7b\"type\":\"transaction\"\x7d" ++
        '\n' :: eventJson { eventW with tracestate := none } ∧
    noNL (envelopeHeaders (lit "2021-01-01T00:00:00.000Z") { eventW with tracestate := none }
      (tracestateDecoded envStd eventW.tracestate)) ∧
    noNL (lit "\x7b\"type\":\"transaction\"\x7d") ∧
    noNL (eventJson { eventW with tracestate := none }) ∧
    (transactionToSentryRequest envStd (lit "2021-01-01T00:00:00.000Z") apiW eventW).body.getLast? =
      some '\x7d' :=
  transaction_envelope_three_lines envStd (lit "2021-01-01T00:00:00.000Z") apiW eventW rfl

/-- C9: an event whose type is not transaction becomes a flat request:
the body is the single JSON serialization of the event and the url is the
store endpoint, distinct from the envelope endpoint transactions use. -/
theorem non_transaction_flat_store_request (env : JsEnv) (sentAt : List Char) (api : API)
    (event : Event) (h : event.type ≠ some (lit "transaction"))
    (hapi : api.storeEndpoint ≠ api.envelopeEndpoint) :
    (eventToSentryRequest env sentAt api event).body = eventJson event ∧
    (eventToSentryRequest env sentAt api event).url = api.storeEndpoint ∧
    (eventToSentryRequest env sentAt api event).url ≠
      (transactionToSentryRequest env sentAt api event).url := by
  unfold eventToSentryRequest
  rw [if_neg h]
  exact ⟨rfl, rfl, hapi⟩

/-- Witness for C9: the empty (typeless) event against `apiW`. -/
theorem non_transaction_flat_store_request_witness :
    (eventToSentryRequest envStd (lit "now") apiW Event.empty).body = eventJson Event.empty ∧
    (eventToSentryRequest envStd (lit "now") apiW Event.empty).url = apiW.storeEndpoint ∧
    (eventToSentryRequest envStd (lit "now") apiW Event.empty).url ≠
      (transactionToSentryRequest envStd (lit "now") apiW Event.empty).url :=
  non_transaction_flat_store_request envStd (lit "now") apiW Event.empty (by decide) (by decide)

/-- C5: with no decision function, a fixed rate of `1` and an inherited
`parentSampled = false`, the resolved decision is `false` for every
random draw and any would-be decision-function value — inheritance
overrides the fixed rate. -/
theorem sampler_parent_false_overrides_rate_one (sr : SampleVal) (random : ℚ) :
    resolveSampled none (some false) true (some (SampleVal.num 1)) false sr random = false := rfl

/-- C6: both codec failure modes are recovered.  When base64 encoding
throws during tracestate creation, `_getNewTracestate` returns the empty
string; when base64 decoding of the event tracestate throws during
envelope assembly, the trace field of the envelope header becomes the
empty string and the three-line request is still produced. -/
theorem encoding_failures_degrade_to_empty (env : JsEnv) (c : Client) (d : Dsn)
    (traceId : List Char) (hd : c.dsn = some d)
    (h1 : (unicodeToBase64 env (strUtf16 (tracestateData traceId d.user
        (jsOrStr c.environment (lit "no environment specified"))
        (jsOrStr c.release (lit "no release specified"))))).isOk = false)
    (t sentAt : List Char) (api : API) (event : Event)
    (h2 : event.tracestate = some t) (h3 : t ≠ [])
    (h4 : (base64ToUnicode env (restoreDot t)).isOk = false) :
    getNewTracestate env (some c) traceId = some [] ∧
    tracestateDecoded env event.tracestate = some [] ∧
    (transactionToSentryRequest env sentAt api event).body =
      envelopeHeaders sentAt { event with tracestate := none } (some []) ++
        '\n' :: itemHeaders { event with tracestate := none } ++
        '\n' :: eventJson { event with tracestate := none } := by
  have hts : tracestateDecoded env event.tracestate = some [] := by
    rw [h2]
    unfold tracestateDecoded
    dsimp only
    rw [if_neg h3]
    cases hb : base64ToUnicode env (restoreDot t) with
    | ok u => rw [hb] at h4; simp [Except.isOk, Except.toBool] at h4
    | error e => rfl
  refine ⟨?_, hts, ?_⟩
  · unfold getNewTracestate
    dsimp only
    rw [hd]
    dsimp only
    cases hu : unicodeToBase64 env (strUtf16 (tracestateData traceId d.user
        (jsOrStr c.environment (lit "no environment specified"))
        (jsOrStr c.release (lit "no release specified")))) with
    | ok b => rw [hu] at h1; simp [Except.isOk, Except.toBool] at h1
    | error e => rfl
  · unfold transactionToSentryRequest
    dsimp only
    rw [hts]

/-- Witness for C6: a host with neither base64 primitive, where both the
encode of the `clientW` record and the decode of the `eventW` tracestate
throw. -/
theorem encoding_failures_degrade_to_empty_witness :
    getNewTracestate envBare (some clientW) traceIdW = some [] ∧
    tracestateDecoded envBare eventW.tracestate = some [] ∧
    (transactionToSentryRequest envBare (lit "now") apiW eventW).body =
      envelopeHeaders (lit "now") { eventW with tracestate := none } (some []) ++
        '\n' :: itemHeaders { eventW with tracestate := none } ++
        '\n' :: eventJson { eventW with tracestate := none } :=
  encoding_failures_degrade_to_empty envBare clientW dsnW traceIdW rfl (by decide)
    (lit "YQA.") (lit "now") apiW eventW rfl (by decide) (by decide)

/-- C10: the tracestate of every constructed transaction is a non-empty
string: the context-supplied value when truthy, else the freshly encoded
value when that exists and is non-empty, else the literal fallback
string. -/
theorem constructor_tracestate_nonempty (env : JsEnv) (ctx : Option (List Char))
    (client : Option Client) (tid : List Char) :
    constructorTracestate env ctx client tid ≠ [] ∧
    (∀ t, ctx = some t → t ≠ [] → constructorTracestate env ctx client tid = t) ∧
    ((ctx = none ∨ ctx = some []) →
      ∀ e, getNewTracestate env client tid = some e → e ≠ [] →
        constructorTracestate env ctx client tid = e) ∧
    ((ctx = none ∨ ctx = some []) →
      (getNewTracestate env client tid = none ∨ getNewTracestate env client tid = some []) →
      constructorTracestate env ctx client tid = lit "things are broken") := by
  unfold constructorTracestate
  refine ⟨jsOrStr_ne_nil _ _ (jsOrStr_ne_nil _ _ (by decide)), ?_, ?_, ?_⟩
  · intro t htc htne
    subst htc
    exact jsOrStr_some _ _ htne
  · intro hctx e hge hene
    have houter : ∀ x : List Char, jsOrStr ctx x = x := by
      rcases hctx with rfl | rfl
      · intro x; rfl
      · intro x; rfl
    rw [houter, hge, jsOrStr_some _ _ hene]
  · intro hctx hg
    have houter : ∀ x : List Char, jsOrStr ctx x = x := by
      rcases hctx with rfl | rfl
      · intro x; rfl
      · intro x; rfl
    rw [houter]
    rcases hg with hg1 | hg2
    · rw [hg1]
      rfl
    · rw [hg2]
      rfl

/-- Witness for C10: no context tracestate and no client, where the
fallback string is used and the invariant still gives a non-empty
value. -/
theorem constructor_tracestate_nonempty_witness :
    constructorTracestate envBare none none [] = lit "things are broken" ∧
    constructorTracestate envBare none none [] ≠ [] :=
  ⟨(constructor_tracestate_nonempty envBare none none []).2.2.2 (Or.inl rfl) (Or.inl rfl),
   (constructor_tracestate_nonempty envBare none none []).1⟩

end Sentry
